import Mathlib

/-!
# time-tracker: entry popup, spreadsheet client and configuration store

A shallow embedding of the Go program: `sheets/service.go` (AppendRow),
`config/config.go` (LoadConfig), `ui/popup.go` (the entry form, resetPopup, the
Submit handler, ShowEntryPopup), `ui/hotkey.go` (RegisterHotkey) and the event
loop of `main.go`.

Go strings are Lean strings and a Go `error` is `Option String` holding the
text of `Error()` (`none` is the nil error). What the program does not define
comes in as an argument: the parsers of strconv and time (`Lib`), the decoder
of encoding/json, the remote spreadsheet service, the state of the
configuration file and the readings of the clock. Models of the
standard-library functions are given in the sections named after them.
-/

namespace TimeTracker

/-! ## sheets/service.go -/

/-- One `Spreadsheets.Values.Append(id, range, valueRange).ValueInputOption(opt).Do()`
call: the arguments the request is built from. -/
structure AppendRequest (α : Type) where
  spreadsheetID : String
  range : String
  valueInputOption : String
  values : List (List α)
deriving DecidableEq, Repr

/-- A non-nil `*sheets.Service`: the error `Do()` returns for a request
(`none` when the remote call succeeds). -/
abbrev Service (α : Type) := AppendRequest α → Option String

/-- How a call ended: it returned an error value, or it dereferenced a nil
pointer and the goroutine panicked. -/
inductive CallResult where
  | returned (err : Option String)
  | panicked
deriving DecidableEq, Repr

/-- The result of `AppendRow` together with the requests it sent to the service. -/
structure AppendOutcome (α : Type) where
  result : CallResult
  requests : List (AppendRequest α)
deriving DecidableEq, Repr

/-- `AppendRow(ctx, service, spreadsheetID, sheetName, values)`.
The service pointer may be nil (`none`); `service.Spreadsheets` is then a nil
dereference. -/
def AppendRow {α : Type} (service : Option (Service α)) (spreadsheetID sheetName : String)
    (values : List α) : AppendOutcome α :=
  if spreadsheetID = "" then
    { result := .returned (some "spreadsheet ID is empty"), requests := [] }
  else
    let rangeData := sheetName ++ "!A:G"
    let valueRange : List (List α) := [values]
    match service with
    | none => { result := .panicked, requests := [] }
    | some svc =>
      let req : AppendRequest α :=
        { spreadsheetID := spreadsheetID, range := rangeData,
          valueInputOption := "USER_ENTERED", values := valueRange }
      { result := .returned (svc req), requests := [req] }

/-! ## config/config.go: the Config type -/

/-- The `Config` struct. -/
structure Config where
  SpreadsheetID : String
  SheetName : String
  Hotkey : String
deriving DecidableEq, Repr

/-! ## Calls into strconv and time -/

/-- The two standard-library parsers the popup calls: whether
`strconv.ParseFloat(text, 64)` and `time.Parse("01/02/2006", text)` return a
non-nil error. -/
structure Lib where
  parseFloatErr : String → Bool
  timeParseErr : String → Bool

/-- A reading of the wall clock, as far as `Format("01/02/2006")` looks at it. -/
structure Date where
  year : Nat
  month : Nat
  day : Nat
deriving DecidableEq, Repr

/-- The decimal digit for a value below ten. -/
def digitChar (n : Nat) : Char := Char.ofNat (48 + n % 10)

/-- The decimal digits of `x`, most significant first, at least `width` of them
(time.appendInt for a non-negative value). `fuel` bounds the number of digits. -/
def appendIntAux : Nat → Nat → Nat → List Char → List Char
  | 0, _, _, acc => acc
  | fuel + 1, x, width, acc =>
    if x < 10 ∧ width ≤ 1 then digitChar x :: acc
    else appendIntAux fuel (x / 10) (width - 1) (digitChar x :: acc)

/-- The call `appendInt(b, x, width)` of package time on an empty buffer. -/
def appendInt (x width : Nat) : List Char :=
  appendIntAux (x + width + 1) x width []

/-- The text of `t.Format("01/02/2006")`: two-digit month, two-digit day, four-digit year. -/
def formatDate (t : Date) : String :=
  String.mk (appendInt t.month 2 ++ '/' :: appendInt t.day 2 ++ '/' :: appendInt t.year 4)

/-! ## package time: `time.Parse("01/02/2006", text)`

The layout has three fixed-width numeric fields separated by '/'. A model of
the parser for this one layout: whether it returns an error. -/

/-- An ASCII decimal digit. -/
def isDigit (c : Char) : Bool := decide (48 ≤ c.toNat) && decide (c.toNat ≤ 57)

/-- The value of a decimal digit. -/
def digitVal (c : Char) : Nat := c.toNat - 48

/-- The call `getnum(s, true)`: exactly two digits are read. -/
def getnum : List Char → Option (Nat × List Char)
  | a :: b :: rest =>
    if isDigit a && isDigit b then some (digitVal a * 10 + digitVal b, rest) else none
  | _ => none

/-- The function `isLeap` of package time. -/
def isLeap (year : Nat) : Bool :=
  decide (year % 4 = 0) && (decide (year % 100 ≠ 0) || decide (year % 400 = 0))

/-- The function `daysIn` of package time, for a month in 1..12. -/
def daysIn (month year : Nat) : Nat :=
  if month = 2 then (if isLeap year then 29 else 28)
  else if month = 4 ∨ month = 6 ∨ month = 9 ∨ month = 11 then 30
  else 31

/-- The field `2006`: four characters, all digits, and nothing after them
(the layout ends there, anything left is "extra text"). -/
def getLongYear : List Char → Option Nat
  | [a, b, c, d] =>
    if isDigit a && isDigit b && isDigit c && isDigit d then
      some (((digitVal a * 10 + digitVal b) * 10 + digitVal c) * 10 + digitVal d)
    else none
  | _ => none

/-- The date `time.Parse("01/02/2006", text)` reads, `none` when it returns an error:
month `01`..`12`, a '/', a two-digit day, a '/', a four-digit year, and the
day within the month. -/
def timeParse (text : List Char) : Option Date :=
  match getnum text with
  | none => none
  | some (month, rest) =>
    if month = 0 ∨ 12 < month then none
    else
      match rest with
      | '/' :: rest1 =>
        match getnum rest1 with
        | none => none
        | some (day, rest2) =>
          match rest2 with
          | '/' :: rest3 =>
            match getLongYear rest3 with
            | none => none
            | some year =>
              if day < 1 ∨ day > daysIn month year then none
              else some { year := year, month := month, day := day }
          | _ => none
      | _ => none

/-- Whether `time.Parse("01/02/2006", text)` returns a non-nil error. -/
def timeParseErr (text : String) : Bool := (timeParse text.data).isNone

/-! ## package strconv: `strconv.ParseFloat(text, 64)`

A model of which texts ParseFloat accepts: the special values, decimal and
hexadecimal literals with the underscore rule, and the range check (an error
when the value rounds to an infinity, that is when its magnitude is at least
`2^1024 - 2^970`). -/

/-- The function `lower` of package strconv (`c | 0x20`), as a character code. -/
def lower (c : Char) : Nat := c.toNat ||| 32

/-- Upper-case ASCII letters mapped to lower case, as `commonPrefixLenIgnoreCase` does. -/
def foldAZ (c : Char) : Nat :=
  if 65 ≤ c.toNat ∧ c.toNat ≤ 90 then c.toNat + 32 else c.toNat

/-- The function `commonPrefixLenIgnoreCase`; the second argument is lower case. -/
def commonPrefixLenIgnoreCase : List Char → List Char → Nat
  | c :: s, p :: ps => if foldAZ c = p.toNat then commonPrefixLenIgnoreCase s ps + 1 else 0
  | _, _ => 0

/-- The `infinity` branch of `special`: the length of the match, when there is one. -/
def specialInf (nsign : Nat) (s : List Char) : Option Nat :=
  let n := commonPrefixLenIgnoreCase s "infinity".data
  let n := if 3 < n ∧ n < 8 then 3 else n
  if n = 3 ∨ n = 8 then some (nsign + n) else none

/-- The function `special`: the number of characters of a leading
`inf`, `infinity` (optionally signed) or `nan`, when there is one. -/
def special : List Char → Option Nat
  | [] => none
  | c :: rest =>
    if c = '+' ∨ c = '-' then specialInf 1 rest
    else if c = 'i' ∨ c = 'I' then specialInf 0 (c :: rest)
    else if c = 'n' ∨ c = 'N' then
      (if commonPrefixLenIgnoreCase (c :: rest) "nan".data = 3 then some 3 else none)
    else none

/-- The running state of the digit loop of `readFloat`; `mant` is the value
of the digits read after the leading zeros (all of them, not only the first 19). -/
structure Mantissa where
  sawdot : Bool
  sawdigits : Bool
  nd : Nat
  dp : Int
  mant : Nat
  underscores : Bool
deriving DecidableEq, Repr

/-- A hexadecimal letter digit. -/
def isHexLetter (c : Char) : Bool := decide (97 ≤ lower c) && decide (lower c ≤ 102)

/-- The digit loop of `readFloat`: returns the state and the unread rest. -/
def readDigits (hex : Bool) : Mantissa → List Char → Mantissa × List Char
  | m, [] => (m, [])
  | m, c :: cs =>
    if c = '_' then readDigits hex { m with underscores := true } cs
    else if c = '.' then
      (if m.sawdot then (m, c :: cs)
       else readDigits hex { m with sawdot := true, dp := m.nd } cs)
    else if isDigit c then
      (if c = '0' ∧ m.nd = 0 then
        readDigits hex { m with sawdigits := true, dp := m.dp - 1 } cs
       else
        readDigits hex { m with sawdigits := true, nd := m.nd + 1,
                                mant := m.mant * (if hex then 16 else 10) + digitVal c } cs)
    else if hex && isHexLetter c then
      readDigits hex { m with sawdigits := true, nd := m.nd + 1,
                              mant := m.mant * 16 + (lower c - 97 + 10) } cs
    else (m, c :: cs)

/-- The exponent digit loop of `readFloat`: the value saturates once it
reaches 10000. Returns the exponent, whether an underscore was seen, and the rest. -/
def readExp : Nat → Bool → List Char → Nat × Bool × List Char
  | e, u, [] => (e, u, [])
  | e, u, c :: cs =>
    if c = '_' then readExp e true cs
    else if isDigit c then readExp (if e < 10000 then e * 10 + digitVal c else e) u cs
    else (e, u, c :: cs)

/-- The function `underscoreOK`, after the sign and base prefix are removed:
`saw` is 0 for a digit or base prefix, 1 for an underscore, 2 for anything
else, 3 at the beginning. -/
def underscoreScan (hex : Bool) : Nat → List Char → Bool
  | saw, [] => saw != 1
  | saw, c :: cs =>
    if isDigit c || (hex && isHexLetter c) then underscoreScan hex 0 cs
    else if c = '_' then (if saw != 0 then false else underscoreScan hex 1 cs)
    else if saw = 1 then false
    else underscoreScan hex 2 cs

/-- The function `underscoreOK`. -/
def underscoreOK (s : List Char) : Bool :=
  let s := match s with
    | c :: rest => if c = '-' ∨ c = '+' then rest else s
    | [] => s
  match s with
  | a :: b :: rest =>
    if a = '0' ∧ (lower b = 98 ∨ lower b = 111 ∨ lower b = 120) then
      underscoreScan (lower b = 120) 0 rest
    else underscoreScan false 3 s
  | _ => underscoreScan false 3 s

/-- What `readFloat` extracts from a well-formed literal: the digits' value,
their count, the position of the point after the exponent is applied (in bits
for a hexadecimal literal), and the unread rest. -/
structure ReadFloat where
  hex : Bool
  mant : Nat
  nd : Nat
  dp : Int
  rest : List Char
deriving DecidableEq, Repr

/-- The function `readFloat`; `none` is its `ok = false`. `whole` is the full text,
for the underscore check. -/
def readFloat (whole : List Char) : Option ReadFloat :=
  match whole with
  | [] => none
  | c0 :: tail =>
    let s := if c0 = '+' ∨ c0 = '-' then tail else whole
    let hex : Bool := match s with
      | a :: b :: _ :: _ => decide (a = '0') && decide (lower b = 120)
      | _ => false
    let s := if hex then s.drop 2 else s
    let (m, rest) := readDigits hex
      { sawdot := false, sawdigits := false, nd := 0, dp := 0, mant := 0,
        underscores := false } s
    if !m.sawdigits then none
    else
      let dp : Int := if m.sawdot then m.dp else m.nd
      let dp : Int := if hex then dp * 4 else dp
      let expChar : Nat := if hex then 112 else 101
      let finish (dp : Int) (underscores : Bool) (rest : List Char) : Option ReadFloat :=
        if underscores && !underscoreOK (whole.take (whole.length - rest.length)) then none
        else some { hex := hex, mant := m.mant, nd := m.nd, dp := dp, rest := rest }
      match rest with
      | c :: r =>
        if lower c = expChar then
          match r with
          | [] => none
          | d :: r1 =>
            let esign : Int := if d = '-' then -1 else 1
            let r2 := if d = '+' ∨ d = '-' then r1 else d :: r1
            match r2 with
            | [] => none
            | d2 :: _ =>
              if !isDigit d2 then none
              else
                let (e, u, rest2) := readExp 0 false r2
                finish (dp + e * esign) (m.underscores || u) rest2
        else if hex then none
        else finish dp m.underscores rest
      | [] => if hex then none else finish dp m.underscores rest

/-- The least magnitude that rounds to an infinity in float64: halfway between
the largest finite value and `2^1024`, that is `2^1024 - 2^970`. -/
def overflowThreshold : Nat := (2 ^ 54 - 1) * (2 ^ 194) ^ 5

/-- Whether the literal is out of range (`ErrRange`): its magnitude compared
exactly with the threshold, which is what the correctly rounded conversion
reports; the early exits on the position of the point are those of
`decimal.floatBits`. A zero mantissa is never out of range. -/
def outOfRange (r : ReadFloat) : Bool :=
  if r.mant = 0 then false
  else if r.hex then
    let e : Int := r.dp - 4 * r.nd
    if 0 ≤ e then decide (overflowThreshold ≤ r.mant * 2 ^ e.toNat)
    else decide (overflowThreshold * 2 ^ (-e).toNat ≤ r.mant)
  else if r.dp > 310 then true
  else if r.dp < -330 then false
  else
    let e : Int := r.dp - r.nd
    if 0 ≤ e then decide (overflowThreshold ≤ r.mant * 10 ^ e.toNat)
    else decide (overflowThreshold * 10 ^ (-e).toNat ≤ r.mant)

/-- Whether `strconv.ParseFloat(text, 64)` returns a non-nil error: the text
is neither a special value nor a well-formed literal read to its end, or the
literal is out of range. -/
def parseFloatErr (text : String) : Bool :=
  let s := text.data
  match special s with
  | some n => n != s.length
  | none =>
    match readFloat s with
    | none => true
    | some r => !r.rest.isEmpty || outOfRange r

/-- The Go standard library, as modelled above. -/
def goLib : Lib := { parseFloatErr := parseFloatErr, timeParseErr := timeParseErr }

/-! ## ui/popup.go: the form -/

/-- A `widget.Entry`: its text and the validation error it displays. -/
structure Entry where
  text : String
  validationError : Option String
deriving DecidableEq, Repr

/-- The text changes (typed, or through `SetText`); an entry that has a
validator runs it on the new text and displays the result. -/
def Entry.SetText (validator : Option (String → Option String)) (e : Entry) (text : String) :
    Entry :=
  match validator with
  | none => { e with text := text }
  | some v => { text := text, validationError := v text }

/-- The call `SetValidationError(err)` on an entry that has a validator. -/
def Entry.SetValidationError (e : Entry) (err : Option String) : Entry :=
  { e with validationError := err }

/-- The package-level variables of popup.go, with the window reduced to whether
it is shown. -/
structure Popup where
  windowShown : Bool
  windowVisible : Bool
  escapeVisible : Bool
  dateEntry : Entry
  hoursEntry : Entry
  descEntry : Entry
  projectEntry : Entry
  branchEntry : Entry
  commitStartEntry : Entry
  commitEndEntry : Entry
deriving DecidableEq, Repr

/-- The validator of `dateEntry`. -/
def dateValidator (lib : Lib) (text : String) : Option String :=
  if text = "" then some "date is required"
  else if lib.timeParseErr text then some "invalid date format, use MM/DD/YYYY"
  else none

/-- The validator of `hoursEntry`. -/
def hoursValidator (lib : Lib) (text : String) : Option String :=
  if text = "" then some "hours are required"
  else if lib.parseFloatErr text then some "invalid hours value, must be a number"
  else none

/-- The validator of `descEntry`. -/
def descValidator (text : String) : Option String :=
  if text = "" then some "description is required" else none

/-- The validator of `projectEntry`. -/
def projectValidator (text : String) : Option String :=
  if text = "" then some "project/repo is required" else none

/-- The function `resetPopup`, run at clock reading `now`. -/
def resetPopup (lib : Lib) (now : Date) (p : Popup) : Popup :=
  let currentDate := formatDate now
  { p with
    dateEntry :=
      ((p.dateEntry.SetText (some (dateValidator lib)) currentDate).SetValidationError none)
    hoursEntry := ((p.hoursEntry.SetText (some (hoursValidator lib)) "").SetValidationError none)
    descEntry := ((p.descEntry.SetText (some descValidator) "").SetValidationError none)
    projectEntry := ((p.projectEntry.SetText (some projectValidator) "").SetValidationError none)
    branchEntry := p.branchEntry.SetText none ""
    commitStartEntry := p.commitStartEntry.SetText none ""
    commitEndEntry := p.commitEndEntry.SetText none ""
    windowShown := false
    windowVisible := false }

/-- A fresh `widget.NewEntry()`. -/
def NewEntry : Entry := { text := "", validationError := none }

/-- The state `BuildPopup` leaves behind when run at clock reading `now`: a new
hidden window, the date entry seeded before its validator is installed. The
flags `windowVisible` and `escapeVisible` are not assigned by BuildPopup and
keep their declared initial value. -/
def BuildPopup (now : Date) : Popup :=
  { windowShown := false
    windowVisible := false
    escapeVisible := false
    dateEntry := NewEntry.SetText none (formatDate now)
    hoursEntry := NewEntry
    descEntry := NewEntry
    projectEntry := NewEntry
    branchEntry := NewEntry
    commitStartEntry := NewEntry
    commitEndEntry := NewEntry }

/-- The dialogs the handlers open, by kind and text. -/
inductive Dialog where
  | error (msg : String)
  | custom (title label : String)
  | progress (title : String)
deriving DecidableEq, Repr

/-- What one tap on Submit did: the popup afterwards, the dialogs opened, and
the outcome of the `AppendRow` call (`none` when the handler returned before
reaching it). -/
structure SubmitOutcome where
  popup : Popup
  dialogs : List Dialog
  append : Option (AppendOutcome String)
deriving DecidableEq, Repr

/-- The row the Submit handler builds from the seven entries. -/
def Popup.row (p : Popup) : List String :=
  [p.dateEntry.text, p.hoursEntry.text, p.descEntry.text, p.projectEntry.text,
   p.branchEntry.text, p.commitStartEntry.text, p.commitEndEntry.text]

/-- The `OnTapped` handler of the Submit button. -/
def submitTapped (lib : Lib) (cfg : Config) (sheetService : Option (Service String))
    (now : Date) (p : Popup) : SubmitOutcome :=
  let hours := p.hoursEntry.text
  if lib.parseFloatErr hours then
    { popup := p, dialogs := [.error "invalid hours value"], append := none }
  else if hours = "" ∨ p.descEntry.text = "" ∨ p.projectEntry.text = "" then
    { popup := p, dialogs := [.error "hours, description and project are required"],
      append := none }
  else
    let row := p.row
    let out := AppendRow sheetService cfg.SpreadsheetID cfg.SheetName row
    match out.result with
    | .panicked => { popup := p, dialogs := [.progress "Submitting"], append := some out }
    | .returned (some err) =>
      { popup := p
        dialogs := [.progress "Submitting", .error ("submission failed: " ++ err)]
        append := some out }
    | .returned none =>
      { popup := resetPopup lib now p
        dialogs := [.progress "Submitting", .custom "Success" "Time entry added!"]
        append := some out }

/-- The function `ShowEntryPopup`. -/
def ShowEntryPopup (p : Popup) : Popup :=
  if !p.escapeVisible then { p with windowShown := true, windowVisible := true } else p

/-! ## config/config.go: LoadConfig -/

/-- A byte of a file. -/
abbrev Byte := Fin 256

/-- The configuration file as `os.ReadFile` finds it. -/
inductive FileState where
  | absent
  | unreadable
  | present (data : List Byte)
deriving DecidableEq, Repr

/-- The errors of `os.ReadFile`. -/
inductive ReadError where
  | notExist
  | denied
deriving DecidableEq, Repr

/-- The call `os.ReadFile(cfgPath)`. -/
def ReadFile : FileState → Except ReadError (List Byte)
  | .absent => .error .notExist
  | .unreadable => .error .denied
  | .present data => .ok data

/-- The function `LoadConfig`. `unmarshal data cfg` is `json.Unmarshal(data, &cfg)`:
the struct after the call and the error returned. -/
def LoadConfig {ε : Type} (unmarshal : List Byte → Config → Config × Option ε)
    (file : FileState) : Config × Option ε :=
  match ReadFile file with
  | .error _ => ({ Hotkey := "ctrl+alt+q", SheetName := "Sheet1", SpreadsheetID := "" }, none)
  | .ok data =>
    let cfg : Config := { SpreadsheetID := "", SheetName := "", Hotkey := "" }
    unmarshal data cfg

/-! ## package encoding/json: `json.Unmarshal(data, &cfg)` for a `*Config`

A model of the decoder on the `Config` struct (three string fields tagged
`spreadsheet_id`, `sheet_name`, `hotkey`): the whole input is first checked
against the JSON grammar, then a top-level object is stored field by field. -/

/-- The errors `json.Unmarshal` returns: a `SyntaxError`, or an
`UnmarshalTypeError` (a JSON value that does not fit the Go type). -/
inductive JsonError where
  | malformed
  | typeMismatch
deriving DecidableEq, Repr

/-- The kinds of JSON value. -/
inductive JKind where
  | null
  | bool
  | number
  | string
  | array
  | object
deriving DecidableEq, Repr

/-- A scanned value: its kind and, for a string, its unquoted text. -/
structure JValue where
  kind : JKind
  str : List Char
deriving DecidableEq, Repr

/-- The function `isSpace` of the scanner. -/
def isSpace (c : Nat) : Bool := c = 32 || c = 9 || c = 13 || c = 10

/-- Leading white space dropped. -/
def skipSpace : List Nat → List Nat
  | [] => []
  | c :: cs => if isSpace c then skipSpace cs else c :: cs

/-- The value of a hexadecimal digit. -/
def hexVal (c : Nat) : Option Nat :=
  if 48 ≤ c ∧ c ≤ 57 then some (c - 48)
  else if 97 ≤ c ∧ c ≤ 102 then some (c - 97 + 10)
  else if 65 ≤ c ∧ c ≤ 70 then some (c - 65 + 10)
  else none

/-- Four hexadecimal digits read as a number. -/
def hex4 : List Nat → Option (Nat × List Nat)
  | a :: b :: c :: d :: rest =>
    match hexVal a, hexVal b, hexVal c, hexVal d with
    | some x, some y, some z, some w => some (((x * 16 + y) * 16 + z) * 16 + w, rest)
    | _, _, _, _ => none
  | _ => none

/-- The function `getu4`: the code unit of a leading `\uXXXX`. -/
def getu4 : List Nat → Option (Nat × List Nat)
  | 92 :: 117 :: rest => hex4 rest
  | _ => none

/-- A UTF-8 continuation byte in the given range. -/
def inRange (lo hi c : Nat) : Bool := decide (lo ≤ c) && decide (c ≤ hi)

/-- The function `utf8.DecodeRune` on a non-ASCII first byte `b0`: the rune
and the rest, or U+FFFD and one byte consumed when the encoding is invalid. -/
def decodeRune (b0 : Nat) (rest : List Nat) : Nat × List Nat :=
  let bad : Nat × List Nat := (0xFFFD, rest)
  if inRange 0xC2 0xDF b0 then
    match rest with
    | b1 :: r => if inRange 0x80 0xBF b1 then ((b0 % 32) * 64 + b1 % 64, r) else bad
    | _ => bad
  else if inRange 0xE0 0xEF b0 then
    let lo := if b0 = 0xE0 then 0xA0 else 0x80
    let hi := if b0 = 0xED then 0x9F else 0xBF
    match rest with
    | b1 :: b2 :: r =>
      if inRange lo hi b1 && inRange 0x80 0xBF b2 then
        (((b0 % 16) * 64 + b1 % 64) * 64 + b2 % 64, r)
      else bad
    | _ => bad
  else if inRange 0xF0 0xF4 b0 then
    let lo := if b0 = 0xF0 then 0x90 else 0x80
    let hi := if b0 = 0xF4 then 0x8F else 0xBF
    match rest with
    | b1 :: b2 :: b3 :: r =>
      if inRange lo hi b1 && inRange 0x80 0xBF b2 && inRange 0x80 0xBF b3 then
        ((((b0 % 8) * 64 + b1 % 64) * 64 + b2 % 64) * 64 + b3 % 64, r)
      else bad
    | _ => bad
  else bad

/-- The body of a string literal, after the opening quote: the scanner's
checks (no control character, only the listed escapes) and the text
`unquote` produces (escapes replaced, surrogate pairs joined, invalid UTF-8
and lone surrogates replaced by U+FFFD). `fuel` is at least the input length. -/
def scanString : Nat → List Nat → List Char → Option (List Char × List Nat)
  | 0, _, _ => none
  | _ + 1, [], _ => none
  | fuel + 1, c :: cs, acc =>
    if c = 34 then some (acc.reverse, cs)
    else if c < 32 then none
    else if c = 92 then
      match cs with
      | [] => none
      | e :: r =>
        if e = 34 ∨ e = 92 ∨ e = 47 then scanString fuel r (Char.ofNat e :: acc)
        else if e = 98 then scanString fuel r (Char.ofNat 8 :: acc)
        else if e = 102 then scanString fuel r (Char.ofNat 12 :: acc)
        else if e = 110 then scanString fuel r (Char.ofNat 10 :: acc)
        else if e = 114 then scanString fuel r (Char.ofNat 13 :: acc)
        else if e = 116 then scanString fuel r (Char.ofNat 9 :: acc)
        else if e = 117 then
          match hex4 r with
          | none => none
          | some (rr, r1) =>
            if 0xD800 ≤ rr ∧ rr < 0xE000 then
              match getu4 r1 with
              | some (rr1, r2) =>
                if rr < 0xDC00 ∧ 0xDC00 ≤ rr1 ∧ rr1 < 0xE000 then
                  scanString fuel r2
                    (Char.ofNat ((rr - 0xD800) * 1024 + (rr1 - 0xDC00) + 0x10000) :: acc)
                else scanString fuel r1 (Char.ofNat 0xFFFD :: acc)
              | none => scanString fuel r1 (Char.ofNat 0xFFFD :: acc)
            else scanString fuel r1 (Char.ofNat rr :: acc)
        else none
    else if c < 128 then scanString fuel cs (Char.ofNat c :: acc)
    else
      let (rr, r) := decodeRune c cs
      scanString fuel r (Char.ofNat rr :: acc)

/-- A run of decimal digits dropped. -/
def skipDigits : List Nat → List Nat
  | [] => []
  | c :: cs => if inRange 48 57 c then skipDigits cs else c :: cs

/-- At least one decimal digit, then the rest of the run, dropped. -/
def digits1 : List Nat → Option (List Nat)
  | c :: cs => if inRange 48 57 c then some (skipDigits cs) else none
  | [] => none

/-- The exponent part of a number, if there is one. -/
def scanExponent : List Nat → Option (List Nat)
  | c :: cs =>
    if c = 101 ∨ c = 69 then
      match cs with
      | s :: r => if s = 43 ∨ s = 45 then digits1 r else digits1 (s :: r)
      | [] => none
    else some (c :: cs)
  | [] => some []

/-- The fraction and exponent parts of a number, if there are any. -/
def scanFraction : List Nat → Option (List Nat)
  | c :: cs =>
    if c = 46 then
      match digits1 cs with
      | some r => scanExponent r
      | none => none
    else scanExponent (c :: cs)
  | [] => some []

/-- A number, after an optional minus sign: `0` or a digit run without a
leading zero, then fraction and exponent. -/
def scanNumber : List Nat → Option (List Nat)
  | c :: cs =>
    if c = 48 then scanFraction cs
    else if inRange 49 57 c then scanFraction (skipDigits cs)
    else none
  | [] => none

/-- The given bytes dropped from the front, when they are there. -/
def expect : List Nat → List Nat → Option (List Nat)
  | [], s => some s
  | c :: cs, d :: ds => if c = d then expect cs ds else none
  | _ :: _, [] => none

/-- The scanner's nesting limit. -/
def maxNestingDepth : Nat := 10000

mutual

/-- One JSON value at the front of the input (white space skipped first):
the value and the unread rest, `none` on a grammar error. `depth` counts the
enclosing arrays and objects. -/
def scanValue : Nat → Nat → List Nat → Option (JValue × List Nat)
  | 0, _, _ => none
  | fuel + 1, depth, s =>
    match skipSpace s with
    | [] => none
    | c :: cs =>
      if c = 123 then
        (if depth + 1 ≤ maxNestingDepth then
          match skipSpace cs with
          | 125 :: r => some ({ kind := .object, str := [] }, r)
          | r =>
            match scanMembers fuel (depth + 1) r with
            | some (_, r1) => some ({ kind := .object, str := [] }, r1)
            | none => none
         else none)
      else if c = 91 then
        (if depth + 1 ≤ maxNestingDepth then
          match skipSpace cs with
          | 93 :: r => some ({ kind := .array, str := [] }, r)
          | r =>
            match scanElements fuel (depth + 1) r with
            | some r1 => some ({ kind := .array, str := [] }, r1)
            | none => none
         else none)
      else if c = 34 then
        match scanString (cs.length + 1) cs [] with
        | some (str, r) => some ({ kind := .string, str := str }, r)
        | none => none
      else if c = 45 then
        match scanNumber cs with
        | some r => some ({ kind := .number, str := [] }, r)
        | none => none
      else if inRange 48 57 c then
        match scanNumber (c :: cs) with
        | some r => some ({ kind := .number, str := [] }, r)
        | none => none
      else if c = 116 then
        match expect [114, 117, 101] cs with
        | some r => some ({ kind := .bool, str := [] }, r)
        | none => none
      else if c = 102 then
        match expect [97, 108, 115, 101] cs with
        | some r => some ({ kind := .bool, str := [] }, r)
        | none => none
      else if c = 110 then
        match expect [117, 108, 108] cs with
        | some r => some ({ kind := .null, str := [] }, r)
        | none => none
      else none

/-- The members of an object from a key on, up to and including the closing
brace: the keys with their values, in order. -/
def scanMembers : Nat → Nat → List Nat → Option (List (List Char × JValue) × List Nat)
  | 0, _, _ => none
  | fuel + 1, depth, s =>
    match skipSpace s with
    | 34 :: cs =>
      match scanString (cs.length + 1) cs [] with
      | none => none
      | some (key, r) =>
        match skipSpace r with
        | 58 :: r1 =>
          match scanValue fuel depth r1 with
          | none => none
          | some (v, r2) =>
            match skipSpace r2 with
            | 44 :: r3 =>
              match scanMembers fuel depth r3 with
              | some (ms, r4) => some ((key, v) :: ms, r4)
              | none => none
            | 125 :: r3 => some ([(key, v)], r3)
            | _ => none
        | _ => none
    | _ => none

/-- The elements of an array from a value on, up to and including the
closing bracket. -/
def scanElements : Nat → Nat → List Nat → Option (List Nat)
  | 0, _, _ => none
  | fuel + 1, depth, s =>
    match scanValue fuel depth s with
    | none => none
    | some (_, r) =>
      match skipSpace r with
      | 44 :: r1 => scanElements fuel depth r1
      | 93 :: r1 => some r1
      | _ => none

end

/-- The top-level value of a document and, when it is an object, its members:
one value with nothing but white space around it (`checkValid`). Two nested
calls of the scanning functions are at least one byte apart, so the fuel
given here is never what ends a scan. -/
def scanDocument (data : List Nat) : Option (JKind × List (List Char × JValue)) :=
  let fuel := 2 * data.length + 2
  match skipSpace data with
  | 123 :: cs =>
    match skipSpace cs with
    | 125 :: r => if (skipSpace r).isEmpty then some (.object, []) else none
    | r =>
      match scanMembers fuel 1 r with
      | some (ms, r1) => if (skipSpace r1).isEmpty then some (.object, ms) else none
      | none => none
  | s =>
    match scanValue fuel 0 s with
    | some (v, r) => if (skipSpace r).isEmpty then some (v.kind, []) else none
    | none => none

/-- A character of a key under simple case folding, as far as it can meet an
ASCII name: ASCII letters in upper case, the Kelvin sign as K, the long s as S. -/
def foldRune (c : Char) : Nat :=
  if 97 ≤ c.toNat ∧ c.toNat ≤ 122 then c.toNat - 32
  else if c.toNat = 0x212A then 75
  else if c.toNat = 0x17F then 83
  else c.toNat

/-- Whether an object key selects the field with the given JSON name: an
exact match or a case-insensitive one. -/
def keyMatches (key : List Char) (name : String) : Bool :=
  key.map foldRune == name.data.map foldRune

/-- One member stored into the struct: a string value sets the field the key
selects, `null` leaves it, any other value is a type error; a key that
selects no field is skipped. -/
def storeMember (cfg : Config) (key : List Char) (v : JValue) : Config × Option JsonError :=
  let store (set : String → Config) : Config × Option JsonError :=
    match v.kind with
    | .string => (set (String.mk v.str), none)
    | .null => (cfg, none)
    | _ => (cfg, some .typeMismatch)
  if keyMatches key "spreadsheet_id" then store (fun t => { cfg with SpreadsheetID := t })
  else if keyMatches key "sheet_name" then store (fun t => { cfg with SheetName := t })
  else if keyMatches key "hotkey" then store (fun t => { cfg with Hotkey := t })
  else (cfg, none)

/-- The members stored in order; the first type error is the one reported. -/
def storeMembers : Config → List (List Char × JValue) → Config × Option JsonError
  | cfg, [] => (cfg, none)
  | cfg, (key, v) :: ms =>
    let (cfg1, e1) := storeMember cfg key v
    let (cfg2, e2) := storeMembers cfg1 ms
    (cfg2, e1.orElse (fun _ => e2))

/-- The call `json.Unmarshal(data, &cfg)`. -/
def jsonUnmarshal (data : List Byte) (cfg : Config) : Config × Option JsonError :=
  match scanDocument (data.map Fin.val) with
  | none => (cfg, some .malformed)
  | some (.object, ms) => storeMembers cfg ms
  | some (.null, _) => (cfg, none)
  | some (_, _) => (cfg, some .typeMismatch)

/-- The bytes of an ASCII text. -/
def asciiBytes (text : String) : List Byte := text.data.map (fun c => Fin.ofNat c.toNat)

/-! ## main.go and ui/hotkey.go: start-up and the event loop -/

/-- The remote service over time: its answer to a request, given how many
requests were sent before. -/
abbrev Remote := Nat → Service String

/-- The package-level variables of main.go and popup.go once `main` is past
start-up, and what the process has done: the requests sent, and whether it
has crashed on a nil dereference. `addEnabled` is the state of the tray item
"Add Time Entry", `hotkeyRegistered` whether `RegisterHotkey` was started. -/
structure App where
  cfg : Config
  sheetService : Option Remote
  addEnabled : Bool
  hotkeyRegistered : Bool
  popup : Popup
  requests : List (AppendRequest String)
  crashed : Bool

/-- The state `main` reaches with configuration `cfg` and the result of
`GetSheetService`: `sheetService` stays nil when the provider returned an
error; the tray item is disabled when it is nil; the hotkey listener is
started when a hotkey is configured. -/
def startApp (cfg : Config) (credentials : Except String Remote) (now : Date) : App :=
  let sheetService : Option Remote :=
    match credentials with
    | .ok service => some service
    | .error _ => none
  { cfg := cfg
    sheetService := sheetService
    addEnabled := sheetService.isSome
    hotkeyRegistered := decide (cfg.Hotkey ≠ "")
    popup := BuildPopup now
    requests := []
    crashed := false }

/-- How start-up ends: `log.Fatalf` on a configuration error, or the running application. -/
inductive Startup where
  | fatal
  | running (app : App)

/-- The function `main` up to the event loop. -/
def main {ε : Type} (unmarshal : List Byte → Config → Config × Option ε) (file : FileState)
    (credentials : Except String Remote) (now : Date) : Startup :=
  match LoadConfig unmarshal file with
  | (_, some _) => .fatal
  | (cfg, none) => .running (startApp cfg credentials now)

/-- The seven entries of the form. -/
inductive Field where
  | date
  | hours
  | desc
  | project
  | branch
  | commitStart
  | commitEnd
deriving DecidableEq, Repr

/-- What can happen to the running application: a click on the tray item
"Add Time Entry", the configured hotkey, the user replacing the text of an
entry, a tap on Submit, the escape key, an answer to the exit confirmation,
and the configuration dialog being submitted. -/
inductive Event where
  | trayAdd
  | hotkey
  | typeText (field : Field) (text : String)
  | submit
  | escape
  | confirmExit (confirmed : Bool)
  | configure (spreadsheetID sheetName : String)
deriving DecidableEq, Repr

/-- The user replaces the text of an entry; its validator, if it has one, runs. -/
def Popup.typeText (lib : Lib) (p : Popup) (field : Field) (text : String) : Popup :=
  match field with
  | .date => { p with dateEntry := p.dateEntry.SetText (some (dateValidator lib)) text }
  | .hours => { p with hoursEntry := p.hoursEntry.SetText (some (hoursValidator lib)) text }
  | .desc => { p with descEntry := p.descEntry.SetText (some descValidator) text }
  | .project => { p with projectEntry := p.projectEntry.SetText (some projectValidator) text }
  | .branch => { p with branchEntry := p.branchEntry.SetText none text }
  | .commitStart => { p with commitStartEntry := p.commitStartEntry.SetText none text }
  | .commitEnd => { p with commitEndEntry := p.commitEndEntry.SetText none text }

/-- The `mAdd.ClickedCh` case of the loop in `startSystemTray`: the popup is
shown only when `sheetService` is not nil. -/
def addClicked (sheetService : Option Remote) (p : Popup) : Popup :=
  if sheetService.isSome then ShowEntryPopup p else p

/-- The callback `RegisterHotkey` registers for the configured key combination. -/
def hotkeyPressed (p : Popup) : Popup := ShowEntryPopup p

/-- The `OnSubmit` of the form in `configureApplication`: both fields of the
shared configuration are assigned before it is saved. -/
def configureApplication (cfg : Config) (spreadsheetID sheetName : String) : Config :=
  { cfg with SpreadsheetID := spreadsheetID, SheetName := sheetName }

/-- The `esc` hook registered by BuildPopup. -/
def escapePressed (p : Popup) : Popup :=
  if p.windowVisible && !p.escapeVisible then { p with escapeVisible := true } else p

/-- The callback of the exit confirmation. -/
def exitConfirmed (lib : Lib) (now : Date) (p : Popup) (confirmed : Bool) : Popup :=
  let p1 :=
    if confirmed then
      { resetPopup lib now p with windowShown := false, windowVisible := false }
    else p
  { p1 with escapeVisible := false }

/-- One event handled at clock reading `now`. A crashed process handles
nothing; the form and its button are only reachable while the window is
shown, the confirmation only while it is open, the tray item only while
enabled, the hotkey only when its listener was started. The escape key is
taken to reach its hook whenever it is pressed. -/
def step (lib : Lib) (now : Date) (a : App) (e : Event) : App :=
  if a.crashed then a
  else
    match e with
    | .trayAdd =>
      if a.addEnabled then { a with popup := addClicked a.sheetService a.popup } else a
    | .hotkey =>
      if a.hotkeyRegistered then { a with popup := hotkeyPressed a.popup } else a
    | .typeText field text =>
      if a.popup.windowShown then { a with popup := a.popup.typeText lib field text } else a
    | .submit =>
      if a.popup.windowShown then
        let service : Option (Service String) := a.sheetService.map (fun r => r a.requests.length)
        let out := submitTapped lib a.cfg service now a.popup
        match out.append with
        | none => { a with popup := out.popup }
        | some call =>
          { a with
            popup := out.popup
            requests := a.requests ++ call.requests
            crashed := decide (call.result = .panicked) }
      else a
    | .escape => { a with popup := escapePressed a.popup }
    | .confirmExit confirmed =>
      if a.popup.escapeVisible then { a with popup := exitConfirmed lib now a.popup confirmed }
      else a
    | .configure spreadsheetID sheetName =>
      { a with cfg := configureApplication a.cfg spreadsheetID sheetName }

/-- The events of a trace handled in order, each at its own clock reading. -/
def run (lib : Lib) : App → List (Date × Event) → App
  | a, [] => a
  | a, (now, e) :: rest => run lib (step lib now a e) rest

/-- Whether start-up ended in `log.Fatalf`. -/
def Startup.isFatal : Startup → Bool
  | .fatal => true
  | .running _ => false

/-- The documented default configuration. -/
def defaultConfig : Config := { Hotkey := "ctrl+alt+q", SheetName := "Sheet1", SpreadsheetID := "" }

/-- The form of the scenario in the specification. -/
def scenarioForm : Popup :=
  { windowShown := true
    windowVisible := true
    escapeVisible := false
    dateEntry := { text := "01/02/2025", validationError := none }
    hoursEntry := { text := "3.5", validationError := none }
    descEntry := { text := "Fix bug", validationError := none }
    projectEntry := { text := "repoA", validationError := none }
    branchEntry := { text := "main", validationError := none }
    commitStartEntry := { text := "abc123", validationError := none }
    commitEndEntry := { text := "def456", validationError := none } }

/-- A configuration with a spreadsheet set. -/
def scenarioConfig : Config := { Hotkey := "ctrl+alt+q", SheetName := "Sheet1", SpreadsheetID := "sheet-1" }

/-- A service whose every call succeeds. -/
def okService : Service String := fun _ => none

/-- A service whose every call fails. -/
def downService : Service String := fun _ => some "503 Service Unavailable"

/-- A clock reading. -/
def someDay : Date := { year := 2026, month := 11, day := 4 }

/-- The state of the form the hide-time reset establishes: the window and
its flag agree, and while the popup is hidden the six free entries are blank. -/
def Settled (p : Popup) : Prop :=
  p.windowShown = p.windowVisible
    ∧ (p.windowVisible = false →
        p.hoursEntry.text = "" ∧ p.descEntry.text = "" ∧ p.projectEntry.text = ""
          ∧ p.branchEntry.text = "" ∧ p.commitStartEntry.text = ""
          ∧ p.commitEndEntry.text = "")

/-- The day before `someDay`. -/
def dayBefore : Date := { year := 2026, month := 11, day := 3 }

/-- The application started with the scenario configuration and a working service. -/
def servedApp (now : Date) : App := startApp scenarioConfig (.ok (fun _ => okService)) now

/-- The application started with the scenario configuration after
`GetSheetService` failed, so that `sheetService` is nil. -/
def unservedApp (now : Date) : App :=
  startApp scenarioConfig (.error "unable to read credentials file") now

/-- A running application without a service and without a hotkey listener,
its popup hidden and nothing sent so far. -/
def Idle (a : App) : Prop :=
  a.sheetService = none ∧ a.hotkeyRegistered = false ∧ a.popup.windowShown = false
    ∧ a.popup.windowVisible = false ∧ a.popup.escapeVisible = false
    ∧ a.crashed = false ∧ a.requests = []

/-! ## Theorems -/

/-! ### Dates printed and read back -/

/-- The digit characters are digits, with the value they were made from. -/
theorem digitChar_spec (k : Nat) :
    isDigit (digitChar k) = true ∧ digitVal (digitChar k) = k % 10 := by
  have h : ∀ d : Fin 10, isDigit (Char.ofNat (48 + d.val)) = true
      ∧ digitVal (Char.ofNat (48 + d.val)) = d.val := by decide
  have hk := h ⟨k % 10, Nat.mod_lt _ (by decide)⟩
  simpa [digitChar] using hk

/-- A value below 100 printed at width 2. -/
theorem appendInt_two (n : Nat) (h : n < 100) :
    appendInt n 2 = [digitChar (n / 10), digitChar n] := by
  have h1 : n / 10 < 10 := by omega
  simp [appendInt, appendIntAux, h1]

/-- A value below 10000 printed at width 4. -/
theorem appendInt_four (n : Nat) (h : n < 10000) :
    appendInt n 4 = [digitChar (n / 1000), digitChar (n / 100), digitChar (n / 10), digitChar n] := by
  have e1 : n / 10 / 10 = n / 100 := by omega
  have e2 : n / 100 / 10 = n / 1000 := by omega
  have h1 : n / 1000 < 10 := by omega
  simp [appendInt, appendIntAux, e1, e2, h1]

/-- A calendar date up to the year 9999, printed with `Format("01/02/2006")`, is
read back by `time.Parse("01/02/2006", _)` as the same date. -/
theorem timeParse_formatDate (t : Date) (hm : 1 ≤ t.month ∧ t.month ≤ 12)
    (hd : 1 ≤ t.day ∧ t.day ≤ daysIn t.month t.year) (hy : t.year ≤ 9999) :
    timeParse (formatDate t).data = some t := by
  have hd31 : t.day ≤ 31 := by
    have : daysIn t.month t.year ≤ 31 := by
      unfold daysIn; split <;> (try split) <;> omega
    omega
  have d1 := digitChar_spec (t.month / 10)
  have d2 := digitChar_spec t.month
  have d3 := digitChar_spec (t.day / 10)
  have d4 := digitChar_spec t.day
  have d5 := digitChar_spec (t.year / 1000)
  have d6 := digitChar_spec (t.year / 100)
  have d7 := digitChar_spec (t.year / 10)
  have d8 := digitChar_spec t.year
  have em : t.month / 10 % 10 * 10 + t.month % 10 = t.month := by omega
  have ed : t.day / 10 % 10 * 10 + t.day % 10 = t.day := by omega
  have ey : ((t.year / 1000 % 10 * 10 + t.year / 100 % 10) * 10 + t.year / 10 % 10) * 10
      + t.year % 10 = t.year := by omega
  simp only [formatDate, appendInt_two t.month (by omega), appendInt_two t.day (by omega),
    appendInt_four t.year (by omega), timeParse, getnum, getLongYear, List.cons_append,
    List.nil_append, d1.1, d1.2, d2.1, d2.2, d3.1, d3.2, d4.1, d4.2, d5.1, d5.2, d6.1, d6.2,
    d7.1, d7.2, d8.1, d8.2, em, ed, ey, Bool.and_self, if_true]
  have hm0 : ¬ (t.month = 0 ∨ 12 < t.month) := by omega
  have hd0 : ¬ (t.day < 1 ∨ t.day > daysIn t.month t.year) := by omega
  simp only [hm0, hd0, if_false]

/-! ### AppendRow, LoadConfig and the Submit handler -/

/-- C1. AppendRow with an empty spreadsheet ID returns the error
"spreadsheet ID is empty" and sends no request, for every service (nil or
not), sheet name and value list. -/
theorem appendRow_empty_id {α : Type} (service : Option (Service α)) (sheetName : String)
    (values : List α) :
    (AppendRow service "" sheetName values).result = .returned (some "spreadsheet ID is empty")
      ∧ (AppendRow service "" sheetName values).requests = [] := by
  simp [AppendRow]

/-- C2. When the configuration file cannot be read, LoadConfig returns a nil
error and exactly the default configuration. -/
theorem loadConfig_unreadable_defaults {ε : Type}
    (unmarshal : List Byte → Config → Config × Option ε) (file : FileState)
    (h : ∃ e, ReadFile file = .error e) :
    LoadConfig unmarshal file
      = ({ Hotkey := "ctrl+alt+q", SheetName := "Sheet1", SpreadsheetID := "" }, none) := by
  obtain ⟨e, he⟩ := h
  simp [LoadConfig, he]

/-- C2 at a missing file, with the JSON decoder of the standard library. -/
theorem loadConfig_unreadable_defaults_witness :
    (∃ e, ReadFile .absent = .error e)
      ∧ LoadConfig jsonUnmarshal .absent
        = ({ Hotkey := "ctrl+alt+q", SheetName := "Sheet1", SpreadsheetID := "" }, none) :=
  ⟨⟨.notExist, rfl⟩, loadConfig_unreadable_defaults jsonUnmarshal .absent ⟨.notExist, rfl⟩⟩

/-- C3. With an empty description, an empty project, or hours that do not
parse as a number, the Submit handler returns without calling AppendRow and
leaves the form as it was. -/
theorem submit_rejects_invalid (lib : Lib) (cfg : Config) (service : Option (Service String))
    (now : Date) (p : Popup)
    (h : p.descEntry.text = "" ∨ p.projectEntry.text = ""
      ∨ lib.parseFloatErr p.hoursEntry.text = true) :
    (submitTapped lib cfg service now p).append = none
      ∧ (submitTapped lib cfg service now p).popup = p := by
  unfold submitTapped
  by_cases hf : lib.parseFloatErr p.hoursEntry.text = true
  · simp [hf]
  · have hgate : p.hoursEntry.text = "" ∨ p.descEntry.text = "" ∨ p.projectEntry.text = "" := by
      rcases h with h | h | h
      · exact Or.inr (Or.inl h)
      · exact Or.inr (Or.inr h)
      · exact absurd h hf
    simp [hf, hgate]

/-- C3 at the scenario form with the hours text "abc", which ParseFloat rejects. -/
theorem submit_rejects_invalid_witness :
    goLib.parseFloatErr "abc" = true
      ∧ (submitTapped goLib scenarioConfig (some okService) someDay
          { scenarioForm with hoursEntry := { text := "abc", validationError := none } }).append
        = none
      ∧ (submitTapped goLib scenarioConfig (some okService) someDay
          { scenarioForm with hoursEntry := { text := "abc", validationError := none } }).popup
        = { scenarioForm with hoursEntry := { text := "abc", validationError := none } } :=
  ⟨by decide,
   submit_rejects_invalid goLib scenarioConfig (some okService) someDay
     { scenarioForm with hoursEntry := { text := "abc", validationError := none } }
     (Or.inr (Or.inr (by decide)))⟩

/-- C4, at the failing input. The date validator rejects "13/40/2024" and the
empty text and accepts "01/02/2025", but the Submit handler does not consult
it: with the other required fields valid, a form dated "13/40/2024" (or with
no date at all) is sent to the service like one dated "01/02/2025". -/
theorem submit_sends_invalid_date :
    dateValidator goLib "13/40/2024" = some "invalid date format, use MM/DD/YYYY"
      ∧ dateValidator goLib "" = some "date is required"
      ∧ dateValidator goLib "01/02/2025" = none
      ∧ (submitTapped goLib scenarioConfig (some okService) someDay
          { scenarioForm with dateEntry := { text := "13/40/2024", validationError := none } }).append
        = some { result := .returned none
                 requests := [{ spreadsheetID := "sheet-1", range := "Sheet1!A:G"
                                valueInputOption := "USER_ENTERED"
                                values := [["13/40/2024", "3.5", "Fix bug", "repoA", "main",
                                            "abc123", "def456"]] }] }
      ∧ (submitTapped goLib scenarioConfig (some okService) someDay
          { scenarioForm with dateEntry := NewEntry }).append
        = some { result := .returned none
                 requests := [{ spreadsheetID := "sheet-1", range := "Sheet1!A:G"
                                valueInputOption := "USER_ENTERED"
                                values := [["", "3.5", "Fix bug", "repoA", "main",
                                            "abc123", "def456"]] }] }
      ∧ ((submitTapped goLib scenarioConfig (some okService) someDay scenarioForm).append.map
          (fun call => call.requests.length)) = some 1 := by
  refine ⟨by decide, by decide, by decide, by decide, by decide, by decide⟩

/-- With a service that is there: for a form that passes the checks of the
Submit handler and a configuration with a non-empty spreadsheet ID, the
handler calls AppendRow, which sends exactly one request: spreadsheet
`cfg.SpreadsheetID`, range `cfg.SheetName` followed by "!A:G", value-input
option "USER_ENTERED", one row of the seven cells date, hours, description,
project, branch, commit start, commit end; AppendRow returns what that
request returned. -/
theorem submit_sends_one_request (lib : Lib) (cfg : Config) (svc : Service String) (now : Date)
    (p : Popup)
    (hparse : lib.parseFloatErr p.hoursEntry.text = false)
    (hhours : p.hoursEntry.text ≠ "") (hdesc : p.descEntry.text ≠ "")
    (hproject : p.projectEntry.text ≠ "") (hid : cfg.SpreadsheetID ≠ "") :
    (submitTapped lib cfg (some svc) now p).append
      = some
          { result :=
              .returned (svc
                { spreadsheetID := cfg.SpreadsheetID, range := cfg.SheetName ++ "!A:G"
                  valueInputOption := "USER_ENTERED"
                  values := [[p.dateEntry.text, p.hoursEntry.text, p.descEntry.text,
                              p.projectEntry.text, p.branchEntry.text, p.commitStartEntry.text,
                              p.commitEndEntry.text]] })
            requests :=
              [{ spreadsheetID := cfg.SpreadsheetID, range := cfg.SheetName ++ "!A:G"
                 valueInputOption := "USER_ENTERED"
                 values := [[p.dateEntry.text, p.hoursEntry.text, p.descEntry.text,
                             p.projectEntry.text, p.branchEntry.text, p.commitStartEntry.text,
                             p.commitEndEntry.text]] }] } := by
  unfold submitTapped
  simp only [hparse, hhours, hdesc, hproject, or_self, Bool.false_eq_true, if_false]
  simp only [AppendRow, hid, if_false, Popup.row]
  cases h : svc
      { spreadsheetID := cfg.SpreadsheetID, range := cfg.SheetName ++ "!A:G",
        valueInputOption := "USER_ENTERED",
        values := [[p.dateEntry.text, p.hoursEntry.text, p.descEntry.text,
                    p.projectEntry.text, p.branchEntry.text, p.commitStartEntry.text,
                    p.commitEndEntry.text]] } <;> simp [h]

/-- C5, at the failing input. The scenario form passes the checks of the
Submit handler and the spreadsheet ID is not empty. With a service the
handler sends the one request the claim describes and AppendRow returns that
call's error. With `sheetService` nil, which the event loop reaches through
the hotkey after `GetSheetService` failed, the same Submit reaches AppendRow,
which panics on `service.Spreadsheets`: no request is sent and nothing is returned. -/
theorem submit_panics_without_service :
    goLib.parseFloatErr scenarioForm.hoursEntry.text = false
      ∧ scenarioForm.hoursEntry.text ≠ "" ∧ scenarioForm.descEntry.text ≠ ""
      ∧ scenarioForm.projectEntry.text ≠ "" ∧ scenarioConfig.SpreadsheetID ≠ ""
      ∧ (submitTapped goLib scenarioConfig (some downService) someDay scenarioForm).append
        = some
            { result := .returned (some "503 Service Unavailable")
              requests :=
                [{ spreadsheetID := "sheet-1", range := "Sheet1!A:G"
                   valueInputOption := "USER_ENTERED"
                   values := [["01/02/2025", "3.5", "Fix bug", "repoA", "main", "abc123",
                               "def456"]] }] }
      ∧ (submitTapped goLib scenarioConfig none someDay scenarioForm).append
        = some { result := .panicked, requests := [] }
      ∧ (run goLib (unservedApp someDay)
          [(someDay, .hotkey), (someDay, .typeText .date "01/02/2025"),
           (someDay, .typeText .hours "3.5"), (someDay, .typeText .desc "Fix bug"),
           (someDay, .typeText .project "repoA"), (someDay, .typeText .branch "main"),
           (someDay, .typeText .commitStart "abc123"), (someDay, .typeText .commitEnd "def456"),
           (someDay, .submit)]).requests = []
      ∧ (run goLib (unservedApp someDay)
          [(someDay, .hotkey), (someDay, .typeText .date "01/02/2025"),
           (someDay, .typeText .hours "3.5"), (someDay, .typeText .desc "Fix bug"),
           (someDay, .typeText .project "repoA"), (someDay, .typeText .branch "main"),
           (someDay, .typeText .commitStart "abc123"), (someDay, .typeText .commitEnd "def456"),
           (someDay, .submit)]).crashed = true := by
  refine ⟨by decide, by decide, by decide, by decide, by decide, by decide, by decide,
    by decide, by decide⟩

/-- C6. After a Submit whose AppendRow call returned no error, the hours,
description, project, branch, commit-start and commit-end entries are empty,
the date entry holds the current date as `Format("01/02/2006")` prints it, the
validation errors of the four required entries are cleared, and the popup is
hidden (`windowVisible` is false and the window is not shown). The date text
is in MM/DD/YYYY form: for a calendar date up to the year 9999,
`time.Parse("01/02/2006", _)` reads it back as the current date. -/
theorem submit_success_resets (lib : Lib) (cfg : Config) (service : Option (Service String))
    (now : Date) (p : Popup)
    (h : (submitTapped lib cfg service now p).append.map (fun call => call.result)
      = some (.returned none)) :
    (submitTapped lib cfg service now p).popup.hoursEntry.text = ""
      ∧ (submitTapped lib cfg service now p).popup.descEntry.text = ""
      ∧ (submitTapped lib cfg service now p).popup.projectEntry.text = ""
      ∧ (submitTapped lib cfg service now p).popup.branchEntry.text = ""
      ∧ (submitTapped lib cfg service now p).popup.commitStartEntry.text = ""
      ∧ (submitTapped lib cfg service now p).popup.commitEndEntry.text = ""
      ∧ (submitTapped lib cfg service now p).popup.dateEntry.text = formatDate now
      ∧ (submitTapped lib cfg service now p).popup.dateEntry.validationError = none
      ∧ (submitTapped lib cfg service now p).popup.hoursEntry.validationError = none
      ∧ (submitTapped lib cfg service now p).popup.descEntry.validationError = none
      ∧ (submitTapped lib cfg service now p).popup.projectEntry.validationError = none
      ∧ (submitTapped lib cfg service now p).popup.windowVisible = false
      ∧ (submitTapped lib cfg service now p).popup.windowShown = false
      ∧ (1 ≤ now.month ∧ now.month ≤ 12 → 1 ≤ now.day ∧ now.day ≤ daysIn now.month now.year →
          now.year ≤ 9999 →
          timeParse (submitTapped lib cfg service now p).popup.dateEntry.text.data = some now) := by
  by_cases h1 : lib.parseFloatErr p.hoursEntry.text = true
  · simp [submitTapped, h1] at h
  · by_cases h2 : p.hoursEntry.text = "" ∨ p.descEntry.text = "" ∨ p.projectEntry.text = ""
    · simp [submitTapped, h1, h2] at h
    · cases hres : (AppendRow service cfg.SpreadsheetID cfg.SheetName p.row).result with
      | panicked => simp [submitTapped, h1, h2, hres] at h
      | returned err =>
        cases err with
        | some msg => simp [submitTapped, h1, h2, hres] at h
        | none =>
          simp only [submitTapped, h1, h2, hres, resetPopup, Entry.SetText,
            Entry.SetValidationError, Bool.false_eq_true, if_false, true_and]
          exact fun hm hd hy => timeParse_formatDate now hm hd hy

/-- C6 at the scenario form, submitted on 4 November 2026 to a service that accepts the row. -/
theorem submit_success_resets_witness :
    (submitTapped goLib scenarioConfig (some okService) someDay scenarioForm).append.map
        (fun call => call.result) = some (.returned none)
      ∧ (submitTapped goLib scenarioConfig (some okService) someDay scenarioForm).popup.dateEntry.text
        = "11/04/2026"
      ∧ (submitTapped goLib scenarioConfig (some okService) someDay scenarioForm).popup.hoursEntry.text
        = ""
      ∧ (submitTapped goLib scenarioConfig (some okService) someDay scenarioForm).popup.windowVisible
        = false :=
  have h := submit_success_resets goLib scenarioConfig (some okService) someDay scenarioForm
    (by decide)
  ⟨by decide, by decide, h.1, h.2.2.2.2.2.2.2.2.2.2.2.1⟩

/-- C7. After a Submit whose AppendRow call returned an error (the
empty-spreadsheet-ID error included), the popup is exactly as before: the
seven entries hold the same text and the visibility flag is unchanged. -/
theorem submit_failure_keeps_form (lib : Lib) (cfg : Config) (service : Option (Service String))
    (now : Date) (p : Popup) (err : String)
    (h : (submitTapped lib cfg service now p).append.map (fun call => call.result)
      = some (.returned (some err))) :
    (submitTapped lib cfg service now p).popup = p
      ∧ (submitTapped lib cfg service now p).popup.row = p.row
      ∧ (submitTapped lib cfg service now p).popup.windowVisible = p.windowVisible := by
  have hp : (submitTapped lib cfg service now p).popup = p := by
    by_cases h1 : lib.parseFloatErr p.hoursEntry.text = true
    · simp [submitTapped, h1]
    · by_cases h2 : p.hoursEntry.text = "" ∨ p.descEntry.text = "" ∨ p.projectEntry.text = ""
      · simp [submitTapped, h1, h2]
      · cases hres : (AppendRow service cfg.SpreadsheetID cfg.SheetName p.row).result with
        | panicked => simp [submitTapped, h1, h2, hres]
        | returned e =>
          cases e with
          | some msg => simp [submitTapped, h1, h2, hres]
          | none => simp [submitTapped, h1, h2, hres] at h
  exact ⟨hp, by rw [hp], by rw [hp]⟩

/-- C7 at the scenario form submitted with no spreadsheet configured: AppendRow
returns the empty-ID error and the form keeps its texts. -/
theorem submit_failure_keeps_form_witness :
    (submitTapped goLib defaultConfig (some okService) someDay scenarioForm).append.map
        (fun call => call.result) = some (.returned (some "spreadsheet ID is empty"))
      ∧ (submitTapped goLib defaultConfig (some okService) someDay scenarioForm).popup
        = scenarioForm :=
  ⟨by decide,
   (submit_failure_keeps_form goLib defaultConfig (some okService) someDay scenarioForm
     "spreadsheet ID is empty" (by decide)).1⟩

/-! ### The form while hidden -/

/-- BuildPopup leaves the form settled. -/
theorem settled_build (now : Date) : Settled (BuildPopup now) := by
  simp [Settled, BuildPopup, NewEntry, Entry.SetText]

/-- The function resetPopup leaves the form settled. -/
theorem settled_reset (lib : Lib) (now : Date) (p : Popup) :
    Settled (resetPopup lib now p) := by
  simp [Settled, resetPopup, Entry.SetText, Entry.SetValidationError]

/-- ShowEntryPopup keeps the form settled. -/
theorem settled_show {p : Popup} (h : Settled p) : Settled (ShowEntryPopup p) := by
  unfold ShowEntryPopup
  split
  · simp [Settled]
  · exact h

/-- Typing into a shown window keeps the form settled. -/
theorem settled_typeText (lib : Lib) {p : Popup} (field : Field) (text : String)
    (hshown : p.windowShown = true) (h : Settled p) :
    Settled (p.typeText lib field text) := by
  have hv : p.windowVisible = true := by rw [← h.1]; exact hshown
  cases field <;> simp [Settled, Popup.typeText, hshown, hv]

/-- The Submit handler leaves the popup as it was or resets it. -/
theorem submitTapped_popup (lib : Lib) (cfg : Config) (service : Option (Service String))
    (now : Date) (p : Popup) :
    (submitTapped lib cfg service now p).popup = p
      ∨ (submitTapped lib cfg service now p).popup = resetPopup lib now p := by
  by_cases h1 : lib.parseFloatErr p.hoursEntry.text = true
  · simp [submitTapped, h1]
  · by_cases h2 : p.hoursEntry.text = "" ∨ p.descEntry.text = "" ∨ p.projectEntry.text = ""
    · simp [submitTapped, h1, h2]
    · cases hres : (AppendRow service cfg.SpreadsheetID cfg.SheetName p.row).result with
      | panicked => simp [submitTapped, h1, h2, hres]
      | returned e =>
        cases e with
        | some msg => simp [submitTapped, h1, h2, hres]
        | none => simp [submitTapped, h1, h2, hres]

/-- The escape hook keeps the form settled. -/
theorem settled_escape {p : Popup} (h : Settled p) : Settled (escapePressed p) := by
  unfold escapePressed
  split
  · exact ⟨h.1, h.2⟩
  · exact h

/-- The answer to the exit confirmation keeps the form settled. -/
theorem settled_exitConfirmed (lib : Lib) (now : Date) {p : Popup} (confirmed : Bool)
    (h : Settled p) : Settled (exitConfirmed lib now p confirmed) := by
  cases confirmed
  · exact ⟨h.1, h.2⟩
  · simp [Settled, exitConfirmed, resetPopup, Entry.SetText, Entry.SetValidationError]

/-- The popup after one event: what each case of `step` leaves there. -/
theorem step_popup (lib : Lib) (now : Date) (a : App) (e : Event) :
    (step lib now a e).popup = a.popup
      ∨ (step lib now a e).popup = ShowEntryPopup a.popup
      ∨ (a.popup.windowShown = true ∧ ∃ field text,
          (step lib now a e).popup = a.popup.typeText lib field text)
      ∨ (step lib now a e).popup = resetPopup lib now a.popup
      ∨ (step lib now a e).popup = escapePressed a.popup
      ∨ ∃ confirmed, (step lib now a e).popup = exitConfirmed lib now a.popup confirmed := by
  unfold step
  by_cases hc : a.crashed = true
  · simp [hc]
  · simp only [hc, Bool.false_eq_true, if_false]
    cases e with
    | trayAdd =>
      by_cases h1 : a.addEnabled = true <;> by_cases h2 : a.sheetService.isSome = true <;>
        simp [h1, h2, addClicked]
    | hotkey => by_cases h1 : a.hotkeyRegistered = true <;> simp [h1, hotkeyPressed]
    | typeText field text =>
      by_cases h1 : a.popup.windowShown = true
      · simp only [h1, if_true]
        exact Or.inr (Or.inr (Or.inl ⟨trivial, field, text, rfl⟩))
      · simp [h1]
    | submit =>
      by_cases h1 : a.popup.windowShown = true
      · simp only [h1, if_true]
        have hpop : ∀ q : Popup, q = (submitTapped lib a.cfg
            (a.sheetService.map (fun r => r a.requests.length)) now a.popup).popup →
            q = a.popup ∨ q = resetPopup lib now a.popup := by
          intro q hq
          rw [hq]
          exact submitTapped_popup lib a.cfg _ now a.popup
        split
        · rcases hpop _ rfl with h2 | h2
          · exact Or.inl h2
          · exact Or.inr (Or.inr (Or.inr (Or.inl h2)))
        · rcases hpop _ rfl with h2 | h2
          · exact Or.inl h2
          · exact Or.inr (Or.inr (Or.inr (Or.inl h2)))
      · simp [h1]
    | escape => exact Or.inr (Or.inr (Or.inr (Or.inr (Or.inl rfl))))
    | confirmExit confirmed =>
      by_cases h1 : a.popup.escapeVisible = true
      · simp only [h1, if_true]
        exact Or.inr (Or.inr (Or.inr (Or.inr (Or.inr ⟨confirmed, rfl⟩))))
      · simp [h1]
    | configure spreadsheetID sheetName => exact Or.inl rfl

/-- Every event keeps the form settled. -/
theorem settled_step (lib : Lib) (now : Date) (a : App) (e : Event) (h : Settled a.popup) :
    Settled (step lib now a e).popup := by
  rcases step_popup lib now a e with h1 | h1 | ⟨hs, field, text, h1⟩ | h1 | h1 | ⟨c, h1⟩ <;>
    rw [h1]
  · exact h
  · exact settled_show h
  · exact settled_typeText lib field text hs h
  · exact settled_reset lib now a.popup
  · exact settled_escape h
  · exact settled_exitConfirmed lib now c h

/-- A trace keeps the form settled. -/
theorem settled_run (lib : Lib) (trace : List (Date × Event)) :
    ∀ a : App, Settled a.popup → Settled (run lib a trace).popup := by
  induction trace with
  | nil => intro a h; exact h
  | cons x rest ih => intro a h; exact ih _ (settled_step lib x.1 a x.2 h)

/-- Every event that hides a visible popup seeds the date entry with the date
of that event. -/
theorem hide_seeds_now (lib : Lib) (now : Date) (a : App) (e : Event)
    (hvis : a.popup.windowVisible = true)
    (hhid : (step lib now a e).popup.windowVisible = false) :
    (step lib now a e).popup.dateEntry.text = formatDate now := by
  rcases step_popup lib now a e with h1 | h1 | ⟨_, field, text, h1⟩ | h1 | h1 | ⟨c, h1⟩ <;>
    rw [h1] at hhid ⊢
  · rw [hvis] at hhid; exact absurd hhid (by decide)
  · unfold ShowEntryPopup at hhid
    split at hhid
    · simp at hhid
    · rw [hvis] at hhid; exact absurd hhid (by decide)
  · cases field <;> simp [Popup.typeText, hvis] at hhid
  · simp [resetPopup, Entry.SetText, Entry.SetValidationError]
  · unfold escapePressed at hhid
    split at hhid
    · simp [hvis] at hhid
    · rw [hvis] at hhid; exact absurd hhid (by decide)
  · cases c
    · simp [exitConfirmed, hvis] at hhid
    · simp [exitConfirmed, resetPopup, Entry.SetText, Entry.SetValidationError]

/-- ShowEntryPopup assigns no entry. -/
theorem show_keeps_entries (p : Popup) :
    (ShowEntryPopup p).dateEntry = p.dateEntry
      ∧ (ShowEntryPopup p).hoursEntry = p.hoursEntry
      ∧ (ShowEntryPopup p).descEntry = p.descEntry
      ∧ (ShowEntryPopup p).projectEntry = p.projectEntry
      ∧ (ShowEntryPopup p).branchEntry = p.branchEntry
      ∧ (ShowEntryPopup p).commitStartEntry = p.commitStartEntry
      ∧ (ShowEntryPopup p).commitEndEntry = p.commitEndEntry := by
  unfold ShowEntryPopup
  split <;> simp

/-- In every state the application reaches from start-up in which the popup
is hidden, and right after ShowEntryPopup from there, hours, description,
project, branch, commit start and commit end are blank; unless the exit
confirmation is open the popup is then visible. -/
theorem show_from_hidden_blank (lib : Lib) (cfg : Config) (credentials : Except String Remote)
    (start : Date) (trace : List (Date × Event))
    (hidden : (run lib (startApp cfg credentials start) trace).popup.windowVisible = false) :
    (ShowEntryPopup (run lib (startApp cfg credentials start) trace).popup).hoursEntry.text = ""
      ∧ (ShowEntryPopup (run lib (startApp cfg credentials start) trace).popup).descEntry.text = ""
      ∧ (ShowEntryPopup (run lib (startApp cfg credentials start) trace).popup).projectEntry.text
        = ""
      ∧ (ShowEntryPopup (run lib (startApp cfg credentials start) trace).popup).branchEntry.text
        = ""
      ∧ (ShowEntryPopup
          (run lib (startApp cfg credentials start) trace).popup).commitStartEntry.text = ""
      ∧ (ShowEntryPopup
          (run lib (startApp cfg credentials start) trace).popup).commitEndEntry.text = ""
      ∧ ((run lib (startApp cfg credentials start) trace).popup.escapeVisible = false →
          (ShowEntryPopup
            (run lib (startApp cfg credentials start) trace).popup).windowVisible = true) := by
  have hinv := settled_run lib trace (startApp cfg credentials start)
    (by simpa [startApp] using settled_build start)
  obtain ⟨h1, h2, h3, h4, h5, h6⟩ := hinv.2 hidden
  obtain ⟨_, e1, e2, e3, e4, e5, e6⟩ :=
    show_keeps_entries (run lib (startApp cfg credentials start) trace).popup
  refine ⟨by rw [e1]; exact h1, by rw [e2]; exact h2, by rw [e3]; exact h3, by rw [e4]; exact h4,
    by rw [e5]; exact h5, by rw [e6]; exact h6, ?_⟩
  intro hesc
  simp [ShowEntryPopup, hesc]

/-! ### Showing the popup -/

/-- C8, at the failing input. The application is started on 3 November 2026,
so BuildPopup seeds the date entry with "11/03/2026", and the hotkey is
pressed on 4 November: ShowEntryPopup takes the popup from hidden to visible
with the six free entries blank, and the date entry still reads "11/03/2026",
not the date of the show. The same happens after a form submitted on
3 November has hidden the popup: shown on 4 November it is dated 3 November. -/
theorem show_keeps_stale_date :
    (servedApp dayBefore).popup.windowVisible = false
      ∧ (step goLib someDay (servedApp dayBefore) .hotkey).popup
        = ShowEntryPopup (servedApp dayBefore).popup
      ∧ (step goLib someDay (servedApp dayBefore) .hotkey).popup.windowVisible = true
      ∧ (step goLib someDay (servedApp dayBefore) .hotkey).popup.dateEntry.text = "11/03/2026"
      ∧ formatDate someDay = "11/04/2026"
      ∧ (step goLib someDay (servedApp dayBefore) .hotkey).popup.dateEntry.text
        ≠ formatDate someDay
      ∧ (step goLib someDay (servedApp dayBefore) .hotkey).popup.row
        = ["11/03/2026", "", "", "", "", "", ""]
      ∧ (run goLib (servedApp dayBefore)
          [(dayBefore, .hotkey), (dayBefore, .typeText .hours "3.5"),
           (dayBefore, .typeText .desc "Fix bug"), (dayBefore, .typeText .project "repoA"),
           (dayBefore, .submit)]).popup.windowVisible = false
      ∧ (run goLib (servedApp dayBefore)
          [(dayBefore, .hotkey), (dayBefore, .typeText .hours "3.5"),
           (dayBefore, .typeText .desc "Fix bug"), (dayBefore, .typeText .project "repoA"),
           (dayBefore, .submit), (someDay, .hotkey)]).popup.windowVisible = true
      ∧ (run goLib (servedApp dayBefore)
          [(dayBefore, .hotkey), (dayBefore, .typeText .hours "3.5"),
           (dayBefore, .typeText .desc "Fix bug"), (dayBefore, .typeText .project "repoA"),
           (dayBefore, .submit), (someDay, .hotkey)]).popup.row
        = ["11/03/2026", "", "", "", "", "", ""] := by
  refine ⟨by decide, by decide, by decide, by decide, by decide, by decide, by decide,
    by decide, by decide, by decide⟩

/-! ### Start-up -/

/-- C9 as stated fails. A configuration file that holds the nine bytes
`not json` is read, `json.Unmarshal` returns a syntax error, LoadConfig
returns that error, and `main` ends in `log.Fatalf`. -/
theorem loadConfig_invalid_json_fatal :
    (LoadConfig jsonUnmarshal (.present (asciiBytes "not json"))).2 = some .malformed
      ∧ (main jsonUnmarshal (.present (asciiBytes "not json"))
          (.ok (fun _ => okService)) someDay).isFatal = true := by
  refine ⟨by decide, by decide⟩

/-- C9, amended. A file that cannot be read (absent or unreadable) is not
fatal: LoadConfig returns a nil error and the defaults. A file that can be
read is handed to `json.Unmarshal` on a zero Config, and LoadConfig returns
the struct and the error of that call; `main` aborts exactly when LoadConfig
returned a non-nil error, and otherwise runs with the configuration it returned. -/
theorem loadConfig_error_policy {ε : Type} (unmarshal : List Byte → Config → Config × Option ε)
    (credentials : Except String Remote) (now : Date) :
    LoadConfig unmarshal .absent = (defaultConfig, none)
      ∧ LoadConfig unmarshal .unreadable = (defaultConfig, none)
      ∧ (∀ data : List Byte, LoadConfig unmarshal (.present data)
          = unmarshal data { SpreadsheetID := "", SheetName := "", Hotkey := "" })
      ∧ (∀ file : FileState, (main unmarshal file credentials now).isFatal
          = (LoadConfig unmarshal file).2.isSome)
      ∧ (∀ file : FileState, (LoadConfig unmarshal file).2 = none →
          ∃ app, main unmarshal file credentials now = .running app
            ∧ app.cfg = (LoadConfig unmarshal file).1) := by
  refine ⟨rfl, rfl, fun _ => rfl, ?_, ?_⟩
  · intro file
    unfold main
    rcases hcfg : LoadConfig unmarshal file with ⟨cfg, _ | err⟩ <;> simp [Startup.isFatal]
  · intro file hnil
    unfold main
    rcases hcfg : LoadConfig unmarshal file with ⟨cfg, _ | err⟩
    · exact ⟨_, rfl, rfl⟩
    · rw [hcfg] at hnil; simp at hnil

/-- With the decoder of the standard library, every file that can be read but
is not one JSON document aborts start-up. -/
theorem main_fatal_of_malformed (data : List Byte) (credentials : Except String Remote)
    (now : Date) (h : scanDocument (data.map Fin.val) = none) :
    (main jsonUnmarshal (.present data) credentials now).isFatal = true := by
  simp [main, LoadConfig, ReadFile, jsonUnmarshal, h, Startup.isFatal]

/-- C9, amended, on a file that holds a configuration: LoadConfig returns it
with a nil error and `main` does not abort. -/
theorem loadConfig_error_policy_witness :
    LoadConfig jsonUnmarshal
        (.present (asciiBytes
          "\x7b\"spreadsheet_id\":\"sheet-1\",\"sheet_name\":\"Sheet1\",\"hotkey\":\"ctrl+alt+q\"\x7d"))
      = (scenarioConfig, none)
      ∧ (main jsonUnmarshal
          (.present (asciiBytes
            "\x7b\"spreadsheet_id\":\"sheet-1\",\"sheet_name\":\"Sheet1\",\"hotkey\":\"ctrl+alt+q\"\x7d"))
          (.ok (fun _ => okService)) someDay).isFatal = false :=
  ⟨by decide,
   ((loadConfig_error_policy jsonUnmarshal (.ok (fun _ => okService)) someDay).2.2.2.1
      (.present (asciiBytes
        "\x7b\"spreadsheet_id\":\"sheet-1\",\"sheet_name\":\"Sheet1\",\"hotkey\":\"ctrl+alt+q\"\x7d"))).trans
     (by decide)⟩

/-! ### A nil service -/

/-- No event takes an idle application out of the idle state. -/
theorem idle_step (lib : Lib) (now : Date) (a : App) (e : Event) (h : Idle a) :
    Idle (step lib now a e) := by
  obtain ⟨h1, h2, h3, h4, h5, h6, h7⟩ := h
  cases e <;> simp [step, h1, h2, h3, h4, h5, h6, h7, Idle, addClicked, escapePressed]
  split <;> simp [h1, h2, h3, h4, h5, h6, h7]

/-- Without a service and without a hotkey listener the tray guard is enough:
whatever the events, the popup is never shown, nothing is sent and the
process does not crash. -/
theorem idle_run (lib : Lib) (trace : List (Date × Event)) :
    ∀ a : App, Idle a → Idle (run lib a trace) := by
  induction trace with
  | nil => intro a h; exact h
  | cons x rest ih => intro a h; exact ih _ (idle_step lib x.1 a x.2 h)


/-- C10, at the failing input. `GetSheetService` failed, so `sheetService` is
nil and the tray item is disabled: a tray click does not show the popup. The
hotkey does: after one press the popup is visible, and a valid form submitted
from it reaches `AppendRow` with the nil service, which panics before any
request is sent. -/
theorem hotkey_shows_popup_without_service :
    (unservedApp someDay).sheetService.isNone = true
      ∧ (unservedApp someDay).addEnabled = false
      ∧ (run goLib (unservedApp someDay) [(someDay, .trayAdd)]).popup.windowVisible = false
      ∧ (run goLib (unservedApp someDay) [(someDay, .hotkey)]).popup.windowVisible = true
      ∧ (run goLib (unservedApp someDay) [(someDay, .hotkey)]).popup.windowShown = true
      ∧ (run goLib (unservedApp someDay)
          [(someDay, .hotkey), (someDay, .typeText .hours "3.5"),
           (someDay, .typeText .desc "Fix bug"), (someDay, .typeText .project "repoA"),
           (someDay, .submit)]).crashed = true
      ∧ (run goLib (unservedApp someDay)
          [(someDay, .hotkey), (someDay, .typeText .hours "3.5"),
           (someDay, .typeText .desc "Fix bug"), (someDay, .typeText .project "repoA"),
           (someDay, .submit)]).requests = [] := by
  refine ⟨by decide, by decide, by decide, by decide, by decide, by decide, by decide⟩

end TimeTracker
